import Mathlib

/-!
Verification of the isomer-data codec and decay-file parser
(`sample_solution/isomer_data.py`).

Python strings are modelled as `List Char`.  Python `str.split(sep)` for a
one-character separator is `pySplitChar`, `str.split()` (whitespace) is
`pySplitWs`, slicing `s[i:j]` is `take`/`drop`, `int(...)` is `pyInt`
(decimal literals with an optional sign; the underscore-separator and
whitespace-stripping extensions of CPython are not modelled since no
statement here depends on them), and `float(...)` is `pyFloat` over `ℚ`
(decimal mantissa with optional fraction and exponent).  `str.isnumeric`
is modelled as the ASCII-digit test, which is exact on the identifier
domain of this program.  Exceptions become `Except PyErr`.  The decay
rate is modelled exactly over `ℚ` in units of `ln 2` per second: the code
computes `log(2) / value` and then rescales by an exact rational unit
factor, so dividing out the common `log 2` loses nothing any claim below
refers to (only the stable case pins the rate, to exactly `0.0`).
-/

namespace Decay

abbrev Str := List Char

/-- Python exception outcomes relevant to `isomer_data.py`. -/
inductive PyErr where
  | valueError (msg : Str)
  | indexError
  | nameError
  | keyError
  | zeroDivisionError
deriving DecidableEq

deriving instance DecidableEq for Except

/-- Reduce an optional value with a default, as Python `try/except` around
an access that may be absent. -/
def onNone {α β : Type} (o : Option α) (d : β) (f : α → β) : β :=
  match o with
  | none => d
  | some a => f a

/-- Python whitespace characters recognised by `str.split()`. -/
def pyIsSpace (c : Char) : Bool :=
  c == ' ' || c == '\t' || c == '\n' || c == '\r' || c == '\x0b' || c == '\x0c'

/-- Python `s.split(sep)` for a one-character separator: keeps empty pieces. -/
def pySplitChar (sep : Char) : Str → List Str
  | [] => [[]]
  | c :: rest =>
    let r := pySplitChar sep rest
    if c = sep then [] :: r else ((c :: r.headI) :: r.tail)

/-- Split on a character predicate, keeping empty pieces. -/
def splitByPred (p : Char → Bool) : Str → List Str
  | [] => [[]]
  | c :: rest =>
    let r := splitByPred p rest
    if p c then [] :: r else ((c :: r.headI) :: r.tail)

/-- Python `s.split()` with no argument: whitespace runs, empty pieces dropped. -/
def pySplitWs (s : Str) : List Str :=
  (splitByPred pyIsSpace s).filter (fun t => !t.isEmpty)

/-- Index of the first character satisfying `p` (the `for/enumerate` scan). -/
def firstIdxWhere (p : Char → Bool) : Str → Option ℕ
  | [] => none
  | c :: rest => if p c then some 0 else (firstIdxWhere p rest).map (· + 1)

/-- The decimal digit character for `d % 10`. -/
def digitChar : ℕ → Char
  | 0 => '0'
  | 1 => '1'
  | 2 => '2'
  | 3 => '3'
  | 4 => '4'
  | 5 => '5'
  | 6 => '6'
  | 7 => '7'
  | 8 => '8'
  | _ => '9'

/-- Numeric value of a digit string (meaningful when all characters are digits). -/
def strToNat (s : Str) : ℕ :=
  s.foldl (fun a c => 10 * a + (c.toNat - 48)) 0

/-- Fuel-driven digit expansion (the fuel only forces structural recursion;
`natToStr_eq` below recovers the clean recurrence). -/
def natToStrF : ℕ → ℕ → Str
  | 0, n => [digitChar n]
  | f + 1, n =>
    if n < 10 then [digitChar n]
    else natToStrF f (n / 10) ++ [digitChar (n % 10)]

/-- Python `str(n)` for a natural number. -/
def natToStr (n : ℕ) : Str := natToStrF n n

/-- Python `str(n)` for an integer. -/
def intToStr (n : ℤ) : Str :=
  if n < 0 then '-' :: natToStr (-n).toNat else natToStr n.toNat

/-- Python `int(s)` on a decimal literal with an optional sign. -/
def pyInt (s : Str) : Option ℤ :=
  match s with
  | [] => none
  | c :: rest =>
    if c = '-' then
      if !rest.isEmpty && rest.all Char.isDigit then some (-(strToNat rest : ℤ)) else none
    else if c = '+' then
      if !rest.isEmpty && rest.all Char.isDigit then some ((strToNat rest : ℤ)) else none
    else
      if (c :: rest).all Char.isDigit then some ((strToNat (c :: rest) : ℤ)) else none

/-- Python `s.zfill(w)`: left-pad with zeros to width `w`, after any sign. -/
def zfill (w : ℕ) (s : Str) : Str :=
  match s with
  | [] => List.replicate w '0'
  | c :: rest =>
    if c = '-' || c = '+' then c :: (List.replicate (w - (rest.length + 1)) '0' ++ rest)
    else List.replicate (w - (rest.length + 1)) '0' ++ (c :: rest)

/-- Strip one optional leading sign, returning the sign as `±1`. -/
def parseSign (s : Str) : ℤ × Str :=
  match s with
  | '-' :: r => (-1, r)
  | '+' :: r => (1, r)
  | _ => (1, s)

/-- Unsigned decimal mantissa with optional fractional part, as in `float`. -/
def parseUFrac (t : Str) : Option ℚ :=
  match pySplitChar '.' t with
  | [ip] => if !ip.isEmpty && ip.all Char.isDigit then some ((strToNat ip : ℚ)) else none
  | [ip, fp] =>
    if (!ip.isEmpty || !fp.isEmpty) && ip.all Char.isDigit && fp.all Char.isDigit then
      some ((strToNat ip : ℚ) + (strToNat fp : ℚ) / (10 : ℚ) ^ fp.length)
    else none
  | _ => none

/-- Python `float(s)` on decimal literals (optional sign, fraction, exponent). -/
def pyFloat (s : Str) : Option ℚ :=
  let st := parseSign s
  match splitByPred (fun c => c == 'e' || c == 'E') st.2 with
  | [m] => (parseUFrac m).map (fun q => st.1 * q)
  | [m, ex] =>
    match parseUFrac m with
    | none => none
    | some q =>
      let et := parseSign ex
      if !et.2.isEmpty && et.2.all Char.isDigit then
        some (st.1 * q * (10 : ℚ) ^ (et.1 * (strToNat et.2 : ℤ)))
      else none
  | _ => none

/-- Modelled from the spec: the external `ElementInfo` element-symbol table
(`sample_solution/element_info.py` is not part of the sources), a fixed
bidirectional mapping `atomic_number (1..118) ↔ element_symbol` that fails
with a lookup error on unknown inputs in either direction. -/
def elementSymbolStrings : List String :=
  ["H", "He", "Li", "Be", "B", "C", "N", "O", "F", "Ne",
   "Na", "Mg", "Al", "Si", "P", "S", "Cl", "Ar", "K", "Ca",
   "Sc", "Ti", "V", "Cr", "Mn", "Fe", "Co", "Ni", "Cu", "Zn",
   "Ga", "Ge", "As", "Se", "Br", "Kr", "Rb", "Sr", "Y", "Zr",
   "Nb", "Mo", "Tc", "Ru", "Rh", "Pd", "Ag", "Cd", "In", "Sn",
   "Sb", "Te", "I", "Xe", "Cs", "Ba", "La", "Ce", "Pr", "Nd",
   "Pm", "Sm", "Eu", "Gd", "Tb", "Dy", "Ho", "Er", "Tm", "Yb",
   "Lu", "Hf", "Ta", "W", "Re", "Os", "Ir", "Pt", "Au", "Hg",
   "Tl", "Pb", "Bi", "Po", "At", "Rn", "Fr", "Ra", "Ac", "Th",
   "Pa", "U", "Np", "Pu", "Am", "Cm", "Bk", "Cf", "Es", "Fm",
   "Md", "No", "Lr", "Rf", "Db", "Sg", "Bh", "Hs", "Mt", "Ds",
   "Rg", "Cn", "Nh", "Fl", "Mc", "Lv", "Ts", "Og"]

/-- The element-symbol table as character lists. -/
def elementSymbols : List Str := elementSymbolStrings.map String.toList

/-- Modelled from the spec: `ElementInfo.get_element_symbol_from_atomic_number`. -/
def get_element_symbol_from_atomic_number (atomic_number : ℤ) : Except PyErr Str :=
  if 1 ≤ atomic_number then
    onNone (elementSymbols.get? (atomic_number.toNat - 1)) (.error .keyError) .ok
  else .error .keyError

/-- Position of the first occurrence of `s` (the table's inverse index). -/
def idxOf (s : Str) : List Str → ℕ
  | [] => 0
  | x :: xs => if x = s then 0 else idxOf s xs + 1

/-- Modelled from the spec: `ElementInfo.get_atomic_number_from_element_symbol`. -/
def get_atomic_number_from_element_symbol (symbol : Str) : Except PyErr ℤ :=
  if symbol ∈ elementSymbols then .ok ((idxOf symbol elementSymbols : ℤ) + 1)
  else .error .keyError

/-- Message of Python `int()` on an invalid literal. -/
def intErrMsg (s : Str) : Str :=
  "invalid literal for int() with base 10: \x27".toList ++ s ++ "\x27".toList

/-- Python `int(s)` with its `ValueError` on invalid literals. -/
def pyIntE (s : Str) : Except PyErr ℤ :=
  onNone (pyInt s) (.error (.valueError (intErrMsg s))) .ok

/-- Python `l[n]` on a list of tokens, with `IndexError` when absent. -/
def getIdx (l : List Str) (n : ℕ) : Except PyErr Str :=
  onNone (l.get? n) (.error .indexError) .ok

/-- `IsomerData.filename_from_nuclear_data`. -/
def filename_from_nuclear_data (atomic_number atomic_mass : ℤ) (energy_state : ℤ) :
    Except PyErr Str :=
  Except.bind (get_element_symbol_from_atomic_number atomic_number) (fun sym =>
    .ok ("dec-".toList ++ (zfill 3 (intToStr atomic_number) ++
         '_' :: (sym ++ '_' :: ((zfill 3 (intToStr atomic_mass) ++
         (if energy_state ≠ 0 then 'm' :: intToStr energy_state else [])) ++
         ".endf".toList)))))

/-- `IsomerData.isomer_name_from_nuclear_data`. -/
def isomer_name_from_nuclear_data (atomic_number atomic_mass energy_state : ℤ) :
    Except PyErr Str :=
  Except.bind (get_element_symbol_from_atomic_number atomic_number) (fun sym =>
    .ok (sym ++ (intToStr atomic_mass ++
         (if energy_state ≠ 0 then 'm' :: intToStr energy_state else []))))

/-- `IsomerData.nuclear_data_from_name`. -/
def nuclear_data_from_name (isomer_name : Str) : Except PyErr (ℤ × ℤ × ℤ) :=
  onNone (firstIdxWhere Char.isDigit isomer_name) (.error .nameError) (fun n_char_symbol =>
    Except.bind (get_atomic_number_from_element_symbol (isomer_name.take n_char_symbol))
      (fun atomic_number =>
    Except.bind (pyIntE (pySplitChar 'm' (isomer_name.drop n_char_symbol)).headI)
      (fun atomic_mass =>
    onNone ((pySplitChar 'm' (isomer_name.drop n_char_symbol)).get? 1)
      (.ok (atomic_number, atomic_mass, 0)) (fun g =>
    Except.bind (pyIntE g) (fun energy_state =>
    .ok (atomic_number, atomic_mass, energy_state))))))

/-- `IsomerData.filename_from_isomer_name`. -/
def filename_from_isomer_name (isomer_name : Str) : Except PyErr Str :=
  Except.bind (nuclear_data_from_name isomer_name) (fun nd =>
    filename_from_nuclear_data nd.1 nd.2.1 nd.2.2)

/-- `IsomerData.nuclear_data_from_filename`. -/
def nuclear_data_from_filename (filename : Str) : Except PyErr (ℤ × ℤ × ℤ) :=
  Except.bind (pyIntE ((filename.drop 4).take 3)) (fun atomic_number =>
  Except.bind (getIdx (pySplitChar '_' filename) 2) (fun seg =>
  Except.bind (pyIntE (pySplitChar 'm' ((pySplitChar '.' seg).headI)).headI)
    (fun atomic_mass =>
  onNone ((pySplitChar 'm' ((pySplitChar '.' seg).headI)).get? 1)
    (.ok (atomic_number, atomic_mass, 0)) (fun g =>
  Except.bind (pyIntE g) (fun energy_state =>
  .ok (atomic_number, atomic_mass, energy_state))))))

/-- `IsomerData.isomer_name_from_filename`. -/
def isomer_name_from_filename (filename : Str) : Except PyErr Str :=
  Except.bind (nuclear_data_from_filename filename) (fun nd =>
    isomer_name_from_nuclear_data nd.1 nd.2.1 nd.2.2)

/-- The literal marker of the parent half-life line. -/
def halfLifeMarker : Str := "Parent half-life".toList

/-- The literal marker of the decay-mode line. -/
def decayModeMarker : Str := "Decay Mode".toList

/-- `line[:16] == "Parent half-life"`. -/
def isHalfLifeLine (l : Str) : Bool := l.take 16 == halfLifeMarker

/-- `line[:10] == "Decay Mode"`. -/
def isDecayModeLine (l : Str) : Bool := l.take 10 == decayModeMarker

/-- Elements 2 and 3 of a token list, with Python `IndexError` on absence. -/
def tokensAt23 (ts : List Str) : Except PyErr (Str × Str) :=
  Except.bind (getIdx ts 2) (fun w =>
  Except.bind (getIdx ts 3) (fun u =>
  .ok (w, u)))

/-- The half-life scan of `IsomerData.__init__`: first line whose first 16
characters are the marker; `line.split(" ")[2]` and `[3]` from it. -/
def extractHalfLife : List Str → Except PyErr (Str × Str)
  | [] => .error (.valueError "No decay rate in this file".toList)
  | l :: rest =>
    if isHalfLifeLine l then tokensAt23 (pySplitChar ' ' l) else extractHalfLife rest

/-- The decay-mode scan of `IsomerData.__init__`: first line whose first 10
characters are the marker; `line.split()[2]` from it. -/
def extractDecayMode : List Str → Except PyErr Str
  | [] => .error (.valueError "No decay mode in this file".toList)
  | l :: rest =>
    if isDecayModeLine l then getIdx (pySplitWs l) 2 else extractDecayMode rest

/-- The unit `match` of `IsomerData.__init__`, applied to the pre-scaling rate. -/
def unitFactorRate (base : ℚ) (u : Str) : Except PyErr ℚ :=
  if u = "PS".toList then .ok (base * 1000000000000)
  else if u = "NS".toList then .ok (base * 1000000000)
  else if u = "US".toList then .ok (base * 1000000)
  else if u = "MS".toList then .ok (base * 1000)
  else if u = "S".toList then .ok base
  else if u = "M".toList then .ok (base / 60)
  else if u = "H".toList then .ok (base / 3600)
  else if u = "D".toList then .ok (base / 86400)
  else if u = "Y".toList then .ok (base / 31536000)
  else .error (.valueError ("Unknown Half-Life Unit \x27".toList ++ u ++ "\x27".toList))

/-- The decay-mode `match` of `IsomerData.__init__`. -/
def decayModeDeltas (dm : Str) : Except PyErr (ℤ × ℤ) :=
  if dm = "A".toList then .ok (-2, -4)
  else if dm = "B-".toList then .ok (1, 0)
  else if dm = "EC".toList then .ok (-1, 0)
  else .error (.valueError ("Unknown decay mode \x27".toList ++ dm ++ "\x27".toList))

/-- The immutable record built by `IsomerData.__init__` (decay rate in
units of `ln 2` per second, see the header note). -/
structure IsomerRec where
  isomer_name : Str
  atomic_number : ℤ
  atomic_mass : ℤ
  energy_state : ℤ
  stable : Bool
  decay_rate : ℚ
  decay_atomic_number_change : ℤ
  decay_atomic_mass_change : ℤ
deriving DecidableEq

/-- Python `float(s)` with its `ValueError` on invalid literals. -/
def pyFloatE (s : Str) : Except PyErr ℚ :=
  onNone (pyFloat s)
    (.error (.valueError ("could not convert string to float: \x27".toList ++ s ++ "\x27".toList)))
    .ok

/-- `IsomerData.__init__` after the half-life tokens have been extracted. -/
def initRest (isomer_name : Str) (a b es : ℤ) (w u : Str) (lines : List Str) :
    Except PyErr IsomerRec :=
  if w = "STABLE".toList then .ok ⟨isomer_name, a, b, es, true, 0, 0, 0⟩
  else
    Except.bind (pyFloatE w) (fun v =>
    if v = 0 then .error .zeroDivisionError
    else
      Except.bind (unitFactorRate (1 / v) u) (fun rate =>
      Except.bind (extractDecayMode lines) (fun dm =>
      Except.bind (decayModeDeltas dm) (fun ds =>
      .ok ⟨isomer_name, a, b, es, false, rate, ds.1, ds.2⟩))))

/-- `IsomerData.__init__`, with the file's lines passed in place of the read. -/
def initIsomer (isomer_name : Str) (lines : List Str) : Except PyErr IsomerRec :=
  Except.bind (nuclear_data_from_name isomer_name) (fun nd =>
  Except.bind (filename_from_isomer_name isomer_name) (fun _f =>
  Except.bind (extractHalfLife lines) (fun wu =>
  initRest isomer_name nd.1 nd.2.1 nd.2.2 wu.1 wu.2 lines)))

/-- `IsomerData.daughter_name`. -/
def daughter_name (r : IsomerRec) : Except PyErr Str :=
  isomer_name_from_nuclear_data (r.atomic_number + r.decay_atomic_number_change)
    (r.atomic_mass + r.decay_atomic_mass_change) 0

/-- The half-life unit tokens accepted by the unit `match`. -/
def unitsList : List Str :=
  (["PS", "NS", "US", "MS", "S", "M", "H", "D", "Y"] : List String).map String.toList

/-- The decay-mode codes accepted by the decay-mode `match`. -/
def modesList : List Str := (["A", "B-", "EC"] : List String).map String.toList

/-- The ten decimal digit characters. -/
def digitChars : Str := "0123456789".toList

section Lemmas

/-! ### Combinators -/

lemma bind_ok {α β : Type} (a : α) (f : α → Except PyErr β) :
    Except.bind (Except.ok a) f = f a := rfl

lemma bind_error {α β : Type} (e : PyErr) (f : α → Except PyErr β) :
    Except.bind (Except.error e : Except PyErr α) f = .error e := rfl

lemma onNone_none {α β : Type} (d : β) (f : α → β) : onNone none d f = d := rfl

lemma onNone_some {α β : Type} (a : α) (d : β) (f : α → β) : onNone (some a) d f = f a := rfl

lemma bind_ok_inv {α β : Type} {x : Except PyErr α} {f : α → Except PyErr β} {c : β}
    (h : Except.bind x f = .ok c) : ∃ a, x = .ok a ∧ f a = .ok c := by
  cases x with
  | ok a => exact ⟨a, rfl, h⟩
  | error e =>
    rw [bind_error] at h
    exact absurd h (by simp)

lemma getIdx_of_get? {l : List Str} {n : ℕ} {x : Str} (h : l.get? n = some x) :
    getIdx l n = .ok x := by
  unfold getIdx
  rw [h, onNone_some]

lemma getIdx_of_none {l : List Str} {n : ℕ} (h : l.get? n = none) :
    getIdx l n = .error .indexError := by
  unfold getIdx
  rw [h, onNone_none]

lemma pyIntE_of_some {s : Str} {n : ℤ} (h : pyInt s = some n) : pyIntE s = .ok n := by
  unfold pyIntE
  rw [h, onNone_some]

lemma pyIntE_of_none {s : Str} (h : pyInt s = none) :
    pyIntE s = .error (.valueError (intErrMsg s)) := by
  unfold pyIntE
  rw [h, onNone_none]

lemma pyFloatE_of_some {s : Str} {v : ℚ} (h : pyFloat s = some v) : pyFloatE s = .ok v := by
  unfold pyFloatE
  rw [h, onNone_some]

lemma pyFloatE_of_none {s : Str} (h : pyFloat s = none) :
    pyFloatE s =
      .error (.valueError ("could not convert string to float: \x27".toList ++ s ++
        "\x27".toList)) := by
  unfold pyFloatE
  rw [h, onNone_none]

/-! ### Splitting -/

lemma pySplitChar_ne_nil (sep : Char) (s : Str) : pySplitChar sep s ≠ [] := by
  cases s with
  | nil => simp [pySplitChar]
  | cons c rest =>
    simp only [pySplitChar]
    split <;> simp

lemma pySplitChar_of_not_mem {sep : Char} {s : Str} (h : ∀ c ∈ s, c ≠ sep) :
    pySplitChar sep s = [s] := by
  induction s with
  | nil => rfl
  | cons c rest ih =>
    have hc : c ≠ sep := h c (by simp)
    have hr : pySplitChar sep rest = [rest] := ih (fun d hd => h d (by simp [hd]))
    simp [pySplitChar, hr, hc]

lemma pySplitChar_append {sep : Char} {x t : Str} (h : ∀ c ∈ x, c ≠ sep) :
    pySplitChar sep (x ++ sep :: t) = x :: pySplitChar sep t := by
  induction x with
  | nil => simp [pySplitChar]
  | cons c rest ih =>
    have hc : c ≠ sep := h c (by simp)
    have hr := ih (fun d hd => h d (by simp [hd]))
    simp only [List.cons_append, pySplitChar, hr, if_neg hc]
    simp [hr]

/-! ### First-index scan -/

lemma firstIdxWhere_none {p : Char → Bool} {s : Str} (h : ∀ c ∈ s, p c = false) :
    firstIdxWhere p s = none := by
  induction s with
  | nil => rfl
  | cons c rest ih =>
    have hc := h c (by simp)
    have hr := ih (fun d hd => h d (by simp [hd]))
    simp [firstIdxWhere, hc, hr]

lemma firstIdxWhere_append {p : Char → Bool} {s : Str} (c : Char) (t : Str)
    (hs : ∀ d ∈ s, p d = false) (hc : p c = true) :
    firstIdxWhere p (s ++ c :: t) = some s.length := by
  induction s with
  | nil => simp [firstIdxWhere, hc]
  | cons d rest ih =>
    have hd := hs d (by simp)
    have hr := ih (fun x hx => hs x (by simp [hx]))
    simp [firstIdxWhere, hd, hr]

/-! ### Digits and numerals -/

lemma digitChar_mem (d : ℕ) : digitChar d ∈ digitChars := by
  unfold digitChar
  split <;> decide

lemma digitChar_sub (d : ℕ) (h : d < 10) : (digitChar d).toNat - 48 = d := by
  interval_cases d <;> decide

lemma mem_digitChars_props {c : Char} (h : c ∈ digitChars) :
    c.isDigit = true ∧ c ≠ 'm' ∧ c ≠ '_' ∧ c ≠ '.' ∧ c ≠ '-' ∧ c ≠ '+' ∧ c ≠ ' ' := by
  have hall : ∀ d ∈ digitChars,
      d.isDigit = true ∧ d ≠ 'm' ∧ d ≠ '_' ∧ d ≠ '.' ∧ d ≠ '-' ∧ d ≠ '+' ∧ d ≠ ' ' := by
    decide
  exact hall c h

lemma natToStrF_fuel : ∀ f f' n : ℕ, n ≤ f → n ≤ f' → natToStrF f n = natToStrF f' n := by
  intro f
  induction f with
  | zero =>
    intro f' n hf hf'
    have hn : n = 0 := by omega
    subst hn
    cases f' with
    | zero => rfl
    | succ k => simp [natToStrF]
  | succ f ih =>
    intro f' n hf hf'
    cases f' with
    | zero =>
      have hn : n = 0 := by omega
      subst hn
      simp [natToStrF]
    | succ k =>
      simp only [natToStrF]
      by_cases h : n < 10
      · rw [if_pos h, if_pos h]
      · rw [if_neg h, if_neg h, ih k (n / 10) (by omega) (by omega)]

lemma natToStr_eq (n : ℕ) :
    natToStr n = if n < 10 then [digitChar n] else natToStr (n / 10) ++ [digitChar (n % 10)] := by
  unfold natToStr
  by_cases h : n < 10
  · rw [if_pos h]
    cases n with
    | zero => rfl
    | succ k =>
      simp only [natToStrF]
      rw [if_pos h]
  · rw [if_neg h]
    have hk : ∃ k, n = k + 1 := ⟨n - 1, by omega⟩
    obtain ⟨k, rfl⟩ := hk
    simp only [natToStrF]
    rw [if_neg h]
    congr 1
    exact natToStrF_fuel k ((k + 1) / 10) ((k + 1) / 10) (by omega) le_rfl

lemma natToStr_mem (n : ℕ) : ∀ c ∈ natToStr n, c ∈ digitChars := by
  induction n using Nat.strong_induction_on with
  | _ n ih =>
    rw [natToStr_eq]
    by_cases h : n < 10
    · rw [if_pos h]
      intro c hc
      simp at hc
      simp [hc, digitChar_mem]
    · rw [if_neg h]
      intro c hc
      rcases List.mem_append.1 hc with h1 | h2
      · exact ih (n / 10) (by omega) c h1
      · simp at h2
        simp [h2, digitChar_mem]

lemma natToStr_ne_nil (n : ℕ) : natToStr n ≠ [] := by
  rw [natToStr_eq]
  by_cases h : n < 10
  · rw [if_pos h]; simp
  · rw [if_neg h]; simp

lemma strToNat_shift (y : Str) (a : ℕ) :
    y.foldl (fun a c => 10 * a + (c.toNat - 48)) a = a * 10 ^ y.length + strToNat y := by
  induction y generalizing a with
  | nil => simp [strToNat]
  | cons c t ih =>
    have h1 := ih (10 * a + (c.toNat - 48))
    have h2 := ih (10 * 0 + (c.toNat - 48))
    simp only [List.foldl_cons, strToNat] at *
    rw [h1, h2]
    simp only [List.length_cons, pow_succ]
    ring

lemma strToNat_append (x y : Str) :
    strToNat (x ++ y) = strToNat x * 10 ^ y.length + strToNat y := by
  unfold strToNat
  rw [List.foldl_append, strToNat_shift]
  rfl

lemma strToNat_natToStr (n : ℕ) : strToNat (natToStr n) = n := by
  induction n using Nat.strong_induction_on with
  | _ n ih =>
    rw [natToStr_eq]
    by_cases h : n < 10
    · rw [if_pos h]
      show 10 * 0 + ((digitChar n).toNat - 48) = n
      rw [digitChar_sub n h]
      omega
    · rw [if_neg h, strToNat_append, ih (n / 10) (by omega)]
      have hd : (digitChar (n % 10)).toNat - 48 = n % 10 := digitChar_sub _ (by omega)
      have hone : strToNat [digitChar (n % 10)] = n % 10 := by
        show 10 * 0 + ((digitChar (n % 10)).toNat - 48) = n % 10
        rw [hd]
        omega
      rw [hone]
      simp only [List.length_singleton, pow_one]
      omega

lemma natToStr_length_le (n k : ℕ) (hk : 1 ≤ k) (h : n < 10 ^ k) :
    (natToStr n).length ≤ k := by
  induction n using Nat.strong_induction_on generalizing k with
  | _ n ih =>
    rw [natToStr_eq]
    by_cases h10 : n < 10
    · rw [if_pos h10]
      simpa using hk
    · rw [if_neg h10]
      have hk2 : 2 ≤ k := by
        by_contra hcon
        interval_cases k
        simp [pow_one] at h
        omega
      have hdiv : n / 10 < 10 ^ (k - 1) := by
        have h10pos : 0 < (10 : ℕ) := by omega
        rw [Nat.div_lt_iff_lt_mul h10pos]
        calc n < 10 ^ k := h
          _ = 10 ^ (k - 1) * 10 := by
              rw [← pow_succ]
              congr 1
              omega
      have := ih (n / 10) (by omega) (k - 1) (by omega) hdiv
      simp only [List.length_append, List.length_singleton]
      omega

lemma pyInt_digit_str {s : Str} (h : ∀ c ∈ s, c ∈ digitChars) (hne : s ≠ []) :
    pyInt s = some ((strToNat s : ℕ) : ℤ) := by
  cases s with
  | nil => exact absurd rfl hne
  | cons c rest =>
    have hc := mem_digitChars_props (h c (by simp))
    have hall : (c :: rest).all Char.isDigit = true := by
      rw [List.all_eq_true]
      intro d hd
      exact (mem_digitChars_props (h d hd)).1
    simp [pyInt, hc.2.2.2.2.1, hc.2.2.2.2.2.1, hall]

lemma pyInt_natToStr (n : ℕ) : pyInt (natToStr n) = some ((n : ℕ) : ℤ) := by
  rw [pyInt_digit_str (natToStr_mem n) (natToStr_ne_nil n), strToNat_natToStr]

lemma intToStr_of_nonneg {n : ℤ} (h : 0 ≤ n) : intToStr n = natToStr n.toNat := by
  unfold intToStr
  rw [if_neg (by omega)]

/-! ### Zero-padding -/

lemma strToNat_replicate_zero (k : ℕ) (s : Str) :
    strToNat (List.replicate k '0' ++ s) = strToNat s := by
  induction k with
  | zero => simp
  | succ k ih =>
    rw [List.replicate_succ, List.cons_append]
    show strToNat (List.replicate k '0' ++ s) = strToNat s
    exact ih

lemma zfill_digit_str {s : Str} (w : ℕ) (h : ∀ c ∈ s, c ∈ digitChars) (hne : s ≠ []) :
    zfill w s = List.replicate (w - s.length) '0' ++ s := by
  cases s with
  | nil => exact absurd rfl hne
  | cons c rest =>
    have hc := mem_digitChars_props (h c (by simp))
    simp [zfill, hc.2.2.2.2.1, hc.2.2.2.2.2.1]

lemma zfill_mem {s : Str} (w : ℕ) (h : ∀ c ∈ s, c ∈ digitChars) (hne : s ≠ []) :
    ∀ c ∈ zfill w s, c ∈ digitChars := by
  rw [zfill_digit_str w h hne]
  intro c hc
  rcases List.mem_append.1 hc with h1 | h2
  · rw [List.eq_of_mem_replicate h1]
    decide
  · exact h c h2

lemma zfill_ne_nil {s : Str} (w : ℕ) (h : ∀ c ∈ s, c ∈ digitChars) (hne : s ≠ []) :
    zfill w s ≠ [] := by
  rw [zfill_digit_str w h hne]
  cases s with
  | nil => exact absurd rfl hne
  | cons c rest => simp

lemma zfill_length {s : Str} (w : ℕ) (h : ∀ c ∈ s, c ∈ digitChars) (hne : s ≠ [])
    (hlen : s.length ≤ w) : (zfill w s).length = w := by
  rw [zfill_digit_str w h hne]
  simp only [List.length_append, List.length_replicate]
  omega

lemma pyInt_zfill_natToStr (w : ℕ) (n : ℕ) :
    pyInt (zfill w (natToStr n)) = some ((n : ℕ) : ℤ) := by
  rw [zfill_digit_str w (natToStr_mem n) (natToStr_ne_nil n),
    pyInt_digit_str (s := List.replicate (w - (natToStr n).length) '0' ++ natToStr n)]
  · rw [strToNat_replicate_zero, strToNat_natToStr]
  · intro c hc
    rcases List.mem_append.1 hc with h1 | h2
    · rw [List.eq_of_mem_replicate h1]; decide
    · exact natToStr_mem n c h2
  · have := natToStr_ne_nil n
    cases hn : natToStr n with
    | nil => exact absurd hn this
    | cons c rest => simp [hn]

/-! ### The element-symbol table -/

set_option maxRecDepth 10000 in
lemma elementSymbols_nodup : elementSymbols.Nodup := by decide

set_option maxRecDepth 10000 in
lemma elementSymbols_props :
    ∀ s ∈ elementSymbols, s ≠ [] ∧ ∀ c ∈ s, c.isDigit = false ∧ c ≠ '_' ∧ c ≠ '.' := by
  decide

lemma get?_idxOf_self {l : List Str} {s : Str} (h : s ∈ l) :
    l.get? (idxOf s l) = some s := by
  induction l with
  | nil => simp at h
  | cons x xs ih =>
    by_cases hx : x = s
    · subst hx
      simp [idxOf]
    · rcases List.mem_cons.1 h with h1 | h2
      · exact absurd h1.symm hx
      · simp only [idxOf, if_neg hx]
        simpa using ih h2

lemma idxOf_of_get? {l : List Str} (nd : l.Nodup) :
    ∀ {i : ℕ} {s : Str}, l.get? i = some s → idxOf s l = i := by
  induction l with
  | nil => intro i s h; simp at h
  | cons x xs ih =>
    intro i s h
    cases i with
    | zero =>
      simp at h
      subst h
      simp [idxOf]
    | succ j =>
      have hj : xs.get? j = some s := h
      have hmem : s ∈ xs := List.get?_mem hj
      have hx : x ≠ s := by
        intro he
        subst he
        exact (List.nodup_cons.1 nd).1 hmem
      simp only [idxOf, if_neg hx]
      have := ih (List.nodup_cons.1 nd).2 hj
      simp [this]

lemma symbol_ok_elim {a : ℤ} {s : Str} (h : get_element_symbol_from_atomic_number a = .ok s) :
    1 ≤ a ∧ elementSymbols.get? (a.toNat - 1) = some s := by
  unfold get_element_symbol_from_atomic_number at h
  split at h
  · cases hg : elementSymbols.get? (a.toNat - 1) with
    | none =>
      rw [hg, onNone_none] at h
      exact absurd h (by simp)
    | some t =>
      rw [hg, onNone_some] at h
      injection h with h2
      exact ⟨by assumption, by rw [h2]⟩
  · exact absurd h (by simp)

lemma symbol_ok_mem {a : ℤ} {s : Str} (h : get_element_symbol_from_atomic_number a = .ok s) :
    s ∈ elementSymbols :=
  List.get?_mem (symbol_ok_elim h).2

lemma atomic_of_symbol {a : ℤ} {s : Str} (h : get_element_symbol_from_atomic_number a = .ok s) :
    get_atomic_number_from_element_symbol s = .ok a := by
  obtain ⟨h1, h2⟩ := symbol_ok_elim h
  have hmem : s ∈ elementSymbols := List.get?_mem h2
  have hidx : idxOf s elementSymbols = a.toNat - 1 := idxOf_of_get? elementSymbols_nodup h2
  unfold get_atomic_number_from_element_symbol
  rw [if_pos hmem, hidx]
  have ha : 1 ≤ a.toNat := by omega
  congr 1
  omega

lemma symbol_of_atomic {a : ℤ} {s : Str} (h : get_atomic_number_from_element_symbol s = .ok a) :
    get_element_symbol_from_atomic_number a = .ok s := by
  unfold get_atomic_number_from_element_symbol at h
  split at h
  · rename_i hmem
    injection h with ha
    have hidx : elementSymbols.get? (idxOf s elementSymbols) = some s := get?_idxOf_self hmem
    unfold get_element_symbol_from_atomic_number
    rw [if_pos (by omega)]
    have heq : a.toNat - 1 = idxOf s elementSymbols := by omega
    rw [heq, hidx, onNone_some]
  · exact absurd h (by simp)

/-! ### Round trip through the isomer name -/

lemma name_parse_zero (s : Str) (a : ℤ) (bn : ℕ)
    (hsym : ∀ c ∈ s, Char.isDigit c = false)
    (hs : get_atomic_number_from_element_symbol s = .ok a) :
    nuclear_data_from_name (s ++ natToStr bn) = .ok (a, (bn : ℤ), 0) := by
  obtain ⟨c, t, hct⟩ := List.exists_cons_of_ne_nil (natToStr_ne_nil bn)
  have hcd : c.isDigit = true :=
    (mem_digitChars_props (natToStr_mem bn c (by rw [hct]; simp))).1
  have hidx : firstIdxWhere Char.isDigit (s ++ natToStr bn) = some s.length := by
    rw [hct]
    exact firstIdxWhere_append c t hsym hcd
  have htake : (s ++ natToStr bn).take s.length = s := List.take_left s _
  have hdrop : (s ++ natToStr bn).drop s.length = natToStr bn := List.drop_left s _
  have hsplit : pySplitChar 'm' (natToStr bn) = [natToStr bn] :=
    pySplitChar_of_not_mem (fun d hd => (mem_digitChars_props (natToStr_mem bn d hd)).2.1)
  unfold nuclear_data_from_name
  rw [hidx, onNone_some]
  beta_reduce
  rw [htake, hs, bind_ok]
  beta_reduce
  rw [hdrop, hsplit]
  have hh1 : ([natToStr bn] : List Str).headI = natToStr bn := rfl
  rw [hh1, pyIntE_of_some (pyInt_natToStr bn), bind_ok]
  beta_reduce
  have hh2 : ([natToStr bn] : List Str).get? 1 = none := rfl
  rw [hh2, onNone_none]

lemma name_parse_pos (s : Str) (a : ℤ) (bn en : ℕ)
    (hsym : ∀ c ∈ s, Char.isDigit c = false)
    (hs : get_atomic_number_from_element_symbol s = .ok a) :
    nuclear_data_from_name (s ++ (natToStr bn ++ 'm' :: natToStr en)) =
      .ok (a, (bn : ℤ), (en : ℤ)) := by
  obtain ⟨c, t, hct⟩ := List.exists_cons_of_ne_nil (natToStr_ne_nil bn)
  have hcd : c.isDigit = true :=
    (mem_digitChars_props (natToStr_mem bn c (by rw [hct]; simp))).1
  have hidx : firstIdxWhere Char.isDigit (s ++ (natToStr bn ++ 'm' :: natToStr en)) =
      some s.length := by
    rw [hct, List.cons_append]
    exact firstIdxWhere_append c (t ++ 'm' :: natToStr en) hsym hcd
  have htake : (s ++ (natToStr bn ++ 'm' :: natToStr en)).take s.length = s := List.take_left s _
  have hdrop : (s ++ (natToStr bn ++ 'm' :: natToStr en)).drop s.length =
      natToStr bn ++ 'm' :: natToStr en := List.drop_left s _
  have hsplit : pySplitChar 'm' (natToStr bn ++ 'm' :: natToStr en) =
      [natToStr bn, natToStr en] := by
    rw [pySplitChar_append (fun d hd => (mem_digitChars_props (natToStr_mem bn d hd)).2.1),
      pySplitChar_of_not_mem (fun d hd => (mem_digitChars_props (natToStr_mem en d hd)).2.1)]
  unfold nuclear_data_from_name
  rw [hidx, onNone_some]
  beta_reduce
  rw [htake, hs, bind_ok]
  beta_reduce
  rw [hdrop, hsplit]
  have hh1 : ([natToStr bn, natToStr en] : List Str).headI = natToStr bn := rfl
  rw [hh1, pyIntE_of_some (pyInt_natToStr bn), bind_ok]
  beta_reduce
  have hh2 : ([natToStr bn, natToStr en] : List Str).get? 1 = some (natToStr en) := rfl
  rw [hh2, onNone_some]
  beta_reduce
  rw [pyIntE_of_some (pyInt_natToStr en), bind_ok]

/-! ### Round trip through the filename -/

lemma dec_prefix_no_underscore (za : Str) (hza : ∀ c ∈ za, c ∈ digitChars) :
    ∀ c ∈ "dec-".toList ++ za, c ≠ '_' := by
  intro c hc
  rcases List.mem_append.1 hc with h1 | h2
  · fin_cases h1 <;> decide
  · exact (mem_digitChars_props (hza c h2)).2.2.1

lemma filename_slice (za R : Str) (hzalen : za.length = 3) :
    (("dec-".toList ++ (za ++ R)).drop 4).take 3 = za := by
  have h4 : ("dec-".toList : Str).length = 4 := rfl
  have hd : ("dec-".toList ++ (za ++ R)).drop 4 = za ++ R := by
    rw [← h4]
    exact List.drop_left _ _
  rw [hd, ← hzalen]
  exact List.take_left _ _

lemma filename_seg2 (s za C : Str) (hs_ : ∀ c ∈ s, c ≠ '_')
    (hza : ∀ c ∈ za, c ∈ digitChars) (hC : ∀ c ∈ C, c ≠ '_') :
    (pySplitChar '_' ("dec-".toList ++ (za ++ '_' :: (s ++ '_' :: C)))).get? 2 = some C := by
  have h1 : pySplitChar '_' ("dec-".toList ++ (za ++ '_' :: (s ++ '_' :: C)))
      = ("dec-".toList ++ za) :: pySplitChar '_' (s ++ '_' :: C) := by
    rw [← List.append_assoc]
    exact pySplitChar_append (dec_prefix_no_underscore za hza)
  rw [h1, pySplitChar_append hs_, pySplitChar_of_not_mem hC]
  rfl

lemma endf_chars : ∀ c ∈ "endf".toList, c ≠ '_' ∧ c ≠ '.' ∧ c ≠ 'm' := by decide

lemma dotendf_chars : ∀ c ∈ ".endf".toList, c ≠ '_' := by decide

lemma filename_parse_zero (s : Str) (an bn : ℕ) (hs_ : ∀ c ∈ s, c ≠ '_')
    (han : an < 1000) (hbn : bn < 1000) :
    nuclear_data_from_filename
        ("dec-".toList ++ (zfill 3 (natToStr an) ++
          '_' :: (s ++ '_' :: (zfill 3 (natToStr bn) ++ ".endf".toList)))) =
      .ok ((an : ℤ), (bn : ℤ), 0) := by
  have hzaP : ∀ c ∈ zfill 3 (natToStr an), c ∈ digitChars :=
    zfill_mem 3 (natToStr_mem an) (natToStr_ne_nil an)
  have hzbP : ∀ c ∈ zfill 3 (natToStr bn), c ∈ digitChars :=
    zfill_mem 3 (natToStr_mem bn) (natToStr_ne_nil bn)
  have hzalen : (zfill 3 (natToStr an)).length = 3 :=
    zfill_length 3 (natToStr_mem an) (natToStr_ne_nil an)
      (natToStr_length_le an 3 (by omega) (by omega))
  have hslice := filename_slice (zfill 3 (natToStr an))
    ('_' :: (s ++ '_' :: (zfill 3 (natToStr bn) ++ ".endf".toList))) hzalen
  have hC : ∀ c ∈ zfill 3 (natToStr bn) ++ ".endf".toList, c ≠ '_' := by
    intro c hc
    rcases List.mem_append.1 hc with h1 | h2
    · exact (mem_digitChars_props (hzbP c h1)).2.2.1
    · exact dotendf_chars c h2
  have hseg := filename_seg2 s (zfill 3 (natToStr an))
    (zfill 3 (natToStr bn) ++ ".endf".toList) hs_ hzaP hC
  have hdot : pySplitChar '.' (zfill 3 (natToStr bn) ++ ".endf".toList)
      = [zfill 3 (natToStr bn), "endf".toList] := by
    have he : (".endf".toList : Str) = '.' :: "endf".toList := rfl
    rw [he, pySplitChar_append (fun c hc => (mem_digitChars_props (hzbP c hc)).2.2.2.1),
      pySplitChar_of_not_mem (fun c hc => (endf_chars c hc).2.1)]
  have hm : pySplitChar 'm' (zfill 3 (natToStr bn)) = [zfill 3 (natToStr bn)] :=
    pySplitChar_of_not_mem (fun c hc => (mem_digitChars_props (hzbP c hc)).2.1)
  unfold nuclear_data_from_filename
  rw [hslice, pyIntE_of_some (pyInt_zfill_natToStr 3 an), bind_ok]
  beta_reduce
  rw [getIdx_of_get? hseg, bind_ok]
  beta_reduce
  rw [hdot]
  have hh1 : ([zfill 3 (natToStr bn), "endf".toList] : List Str).headI =
      zfill 3 (natToStr bn) := rfl
  rw [hh1, hm]
  have hh2 : ([zfill 3 (natToStr bn)] : List Str).headI = zfill 3 (natToStr bn) := rfl
  rw [hh2, pyIntE_of_some (pyInt_zfill_natToStr 3 bn), bind_ok]
  beta_reduce
  have hh3 : ([zfill 3 (natToStr bn)] : List Str).get? 1 = none := rfl
  rw [hh3, onNone_none]

lemma filename_parse_pos (s : Str) (an bn en : ℕ) (hs_ : ∀ c ∈ s, c ≠ '_')
    (han : an < 1000) (hbn : bn < 1000) :
    nuclear_data_from_filename
        ("dec-".toList ++ (zfill 3 (natToStr an) ++
          '_' :: (s ++ '_' :: ((zfill 3 (natToStr bn) ++ 'm' :: natToStr en) ++
            ".endf".toList)))) =
      .ok ((an : ℤ), (bn : ℤ), (en : ℤ)) := by
  have hzaP : ∀ c ∈ zfill 3 (natToStr an), c ∈ digitChars :=
    zfill_mem 3 (natToStr_mem an) (natToStr_ne_nil an)
  have hzbP : ∀ c ∈ zfill 3 (natToStr bn), c ∈ digitChars :=
    zfill_mem 3 (natToStr_mem bn) (natToStr_ne_nil bn)
  have hzalen : (zfill 3 (natToStr an)).length = 3 :=
    zfill_length 3 (natToStr_mem an) (natToStr_ne_nil an)
      (natToStr_length_le an 3 (by omega) (by omega))
  have hslice := filename_slice (zfill 3 (natToStr an))
    ('_' :: (s ++ '_' :: ((zfill 3 (natToStr bn) ++ 'm' :: natToStr en) ++ ".endf".toList)))
    hzalen
  have hC : ∀ c ∈ (zfill 3 (natToStr bn) ++ 'm' :: natToStr en) ++ ".endf".toList,
      c ≠ '_' := by
    intro c hc
    rcases List.mem_append.1 hc with h1 | h2
    · rcases List.mem_append.1 h1 with h3 | h4
      · exact (mem_digitChars_props (hzbP c h3)).2.2.1
      · rcases List.mem_cons.1 h4 with h5 | h6
        · rw [h5]; decide
        · exact (mem_digitChars_props (natToStr_mem en c h6)).2.2.1
    · exact dotendf_chars c h2
  have hseg := filename_seg2 s (zfill 3 (natToStr an))
    ((zfill 3 (natToStr bn) ++ 'm' :: natToStr en) ++ ".endf".toList) hs_ hzaP hC
  have hdot : pySplitChar '.' ((zfill 3 (natToStr bn) ++ 'm' :: natToStr en) ++ ".endf".toList)
      = [zfill 3 (natToStr bn) ++ 'm' :: natToStr en, "endf".toList] := by
    have he : (".endf".toList : Str) = '.' :: "endf".toList := rfl
    have hnodot : ∀ c ∈ zfill 3 (natToStr bn) ++ 'm' :: natToStr en, c ≠ '.' := by
      intro c hc
      rcases List.mem_append.1 hc with h1 | h2
      · exact (mem_digitChars_props (hzbP c h1)).2.2.2.1
      · rcases List.mem_cons.1 h2 with h3 | h4
        · rw [h3]; decide
        · exact (mem_digitChars_props (natToStr_mem en c h4)).2.2.2.1
    rw [he, pySplitChar_append hnodot,
      pySplitChar_of_not_mem (fun c hc => (endf_chars c hc).2.1)]
  have hm : pySplitChar 'm' (zfill 3 (natToStr bn) ++ 'm' :: natToStr en)
      = [zfill 3 (natToStr bn), natToStr en] := by
    rw [pySplitChar_append (fun c hc => (mem_digitChars_props (hzbP c hc)).2.1),
      pySplitChar_of_not_mem (fun c hc => (mem_digitChars_props (natToStr_mem en c hc)).2.1)]
  unfold nuclear_data_from_filename
  rw [hslice, pyIntE_of_some (pyInt_zfill_natToStr 3 an), bind_ok]
  beta_reduce
  rw [getIdx_of_get? hseg, bind_ok]
  beta_reduce
  rw [hdot]
  have hh1 : ([zfill 3 (natToStr bn) ++ 'm' :: natToStr en, "endf".toList] : List Str).headI =
      zfill 3 (natToStr bn) ++ 'm' :: natToStr en := rfl
  rw [hh1, hm]
  have hh2 : ([zfill 3 (natToStr bn), natToStr en] : List Str).headI =
      zfill 3 (natToStr bn) := rfl
  rw [hh2, pyIntE_of_some (pyInt_zfill_natToStr 3 bn), bind_ok]
  beta_reduce
  have hh3 : ([zfill 3 (natToStr bn), natToStr en] : List Str).get? 1 = some (natToStr en) :=
    rfl
  rw [hh3, onNone_some]
  beta_reduce
  rw [pyIntE_of_some (pyInt_natToStr en), bind_ok]

/-! ### The line scans -/

lemma extractHalfLife_of_none {lines : List Str} (h : ∀ l ∈ lines, isHalfLifeLine l = false) :
    extractHalfLife lines = .error (.valueError "No decay rate in this file".toList) := by
  induction lines with
  | nil => rfl
  | cons l rest ih =>
    rw [extractHalfLife, if_neg (by simp [h l (by simp)])]
    exact ih (fun x hx => h x (by simp [hx]))

lemma extractHalfLife_of_first (pre : List Str) (l : Str) (post : List Str)
    (hpre : ∀ x ∈ pre, isHalfLifeLine x = false) (hl : isHalfLifeLine l = true) :
    extractHalfLife (pre ++ l :: post) = tokensAt23 (pySplitChar ' ' l) := by
  induction pre with
  | nil => rw [List.nil_append, extractHalfLife, if_pos (by simp [hl])]
  | cons x rest ih =>
    rw [List.cons_append, extractHalfLife, if_neg (by simp [hpre x (by simp)])]
    exact ih (fun y hy => hpre y (by simp [hy]))

lemma extractHalfLife_append {lines : List Str} {wu : Str × Str} (extra : List Str)
    (h : extractHalfLife lines = .ok wu) :
    extractHalfLife (lines ++ extra) = .ok wu := by
  induction lines with
  | nil => exact absurd h (by simp [extractHalfLife])
  | cons l rest ih =>
    rw [extractHalfLife] at h
    rw [List.cons_append, extractHalfLife]
    by_cases hl : isHalfLifeLine l = true
    · rw [if_pos hl] at h
      rw [if_pos hl]
      exact h
    · rw [if_neg hl] at h
      rw [if_neg hl]
      exact ih h

lemma extractDecayMode_of_none {lines : List Str} (h : ∀ l ∈ lines, isDecayModeLine l = false) :
    extractDecayMode lines = .error (.valueError "No decay mode in this file".toList) := by
  induction lines with
  | nil => rfl
  | cons l rest ih =>
    rw [extractDecayMode, if_neg (by simp [h l (by simp)])]
    exact ih (fun x hx => h x (by simp [hx]))

lemma extractDecayMode_append {lines : List Str} {dm : Str} (extra : List Str)
    (h : extractDecayMode lines = .ok dm) :
    extractDecayMode (lines ++ extra) = .ok dm := by
  induction lines with
  | nil => exact absurd h (by simp [extractDecayMode])
  | cons l rest ih =>
    rw [extractDecayMode] at h
    rw [List.cons_append, extractDecayMode]
    by_cases hl : isDecayModeLine l = true
    · rw [if_pos hl] at h
      rw [if_pos hl]
      exact h
    · rw [if_neg hl] at h
      rw [if_neg hl]
      exact ih h

/-! ### Unfolding the constructor -/

lemma nd_ok_symbol {name : Str} {a b es : ℤ}
    (h : nuclear_data_from_name name = .ok (a, b, es)) :
    ∃ s, get_atomic_number_from_element_symbol s = .ok a := by
  unfold nuclear_data_from_name at h
  cases hidx : firstIdxWhere Char.isDigit name with
  | none =>
    rw [hidx, onNone_none] at h
    exact absurd h (by simp)
  | some i =>
    rw [hidx, onNone_some] at h
    beta_reduce at h
    obtain ⟨a', ha', hrest⟩ := bind_ok_inv h
    beta_reduce at hrest
    obtain ⟨m, hmm, hrest2⟩ := bind_ok_inv hrest
    beta_reduce at hrest2
    refine ⟨name.take i, ?_⟩
    cases hg : (pySplitChar 'm' (name.drop i)).get? 1 with
    | none =>
      rw [hg, onNone_none] at hrest2
      injection hrest2 with hp
      have haa : a' = a := congrArg Prod.fst hp
      rw [ha', haa]
    | some g =>
      rw [hg, onNone_some] at hrest2
      beta_reduce at hrest2
      obtain ⟨ev, hev, hfin⟩ := bind_ok_inv hrest2
      injection hfin with hp
      have haa : a' = a := congrArg Prod.fst hp
      rw [ha', haa]

lemma filename_isomer_ok {name : Str} {a b es : ℤ}
    (hnd : nuclear_data_from_name name = .ok (a, b, es)) :
    ∃ f, filename_from_isomer_name name = .ok f := by
  obtain ⟨s, hs⟩ := nd_ok_symbol hnd
  have hsym := symbol_of_atomic hs
  refine ⟨"dec-".toList ++ (zfill 3 (intToStr a) ++ '_' :: (s ++ '_' ::
    ((zfill 3 (intToStr b) ++ (if es ≠ 0 then 'm' :: intToStr es else [])) ++
      ".endf".toList))), ?_⟩
  unfold filename_from_isomer_name
  rw [hnd, bind_ok]
  beta_reduce
  change filename_from_nuclear_data a b es = _
  unfold filename_from_nuclear_data
  rw [hsym, bind_ok]

lemma initIsomer_eq {name : Str} {a b es : ℤ} {lines : List Str} {w u : Str}
    (hnd : nuclear_data_from_name name = .ok (a, b, es))
    (hext : extractHalfLife lines = .ok (w, u)) :
    initIsomer name lines = initRest name a b es w u lines := by
  obtain ⟨f, hf⟩ := filename_isomer_ok hnd
  unfold initIsomer
  rw [hnd, bind_ok]
  beta_reduce
  rw [hf, bind_ok]
  beta_reduce
  rw [hext, bind_ok]

/-! ### Units and modes -/

lemma unitFactor_mem (base : ℚ) {u : Str} (hu : u ∈ unitsList) :
    ∃ q, unitFactorRate base u = .ok q := by
  simp only [unitsList, List.map, List.mem_cons, List.not_mem_nil, or_false] at hu
  rcases hu with rfl | rfl | rfl | rfl | rfl | rfl | rfl | rfl | rfl <;> exact ⟨_, rfl⟩

lemma unitFactor_not_mem (base : ℚ) {u : Str} (hu : u ∉ unitsList) :
    unitFactorRate base u =
      .error (.valueError ("Unknown Half-Life Unit \x27".toList ++ u ++ "\x27".toList)) := by
  simp only [unitsList, List.map, List.mem_cons, List.not_mem_nil, or_false] at hu
  push_neg at hu
  obtain ⟨h1, h2, h3, h4, h5, h6, h7, h8, h9⟩ := hu
  unfold unitFactorRate
  rw [if_neg h1, if_neg h2, if_neg h3, if_neg h4, if_neg h5, if_neg h6, if_neg h7,
    if_neg h8, if_neg h9]

lemma decayMode_not_mem {dm : Str} (hdm : dm ∉ modesList) :
    decayModeDeltas dm =
      .error (.valueError ("Unknown decay mode \x27".toList ++ dm ++ "\x27".toList)) := by
  simp only [modesList, List.map, List.mem_cons, List.not_mem_nil, or_false] at hdm
  push_neg at hdm
  obtain ⟨h1, h2, h3⟩ := hdm
  unfold decayModeDeltas
  rw [if_neg h1, if_neg h2, if_neg h3]

set_option maxRecDepth 10000 in
lemma elementSymbols_length : elementSymbols.length = 118 := by decide

lemma atomic_bound {a : ℤ} {s : Str} (h : get_element_symbol_from_atomic_number a = .ok s) :
    1 ≤ a ∧ a ≤ 118 := by
  obtain ⟨h1, h2⟩ := symbol_ok_elim h
  rcases List.get?_eq_some.1 h2 with ⟨hlt, _⟩
  rw [elementSymbols_length] at hlt
  omega

end Lemmas

section Claims

/-- C1: for every triple `(atomic_number, atomic_mass, energy_state)` with a known
element symbol for `atomic_number`, `atomic_number` and `atomic_mass` below 1000 and
`energy_state ≥ 0`, `nuclear_data_from_name` applied to
`isomer_name_from_nuclear_data atomic_number atomic_mass energy_state` returns exactly
`(atomic_number, atomic_mass, energy_state)`. -/
theorem C1_name_roundtrip (a b es : ℤ) (s : Str)
    (hs : get_element_symbol_from_atomic_number a = .ok s)
    (ha : a < 1000) (hb0 : 0 ≤ b) (hb : b < 1000) (he : 0 ≤ es) :
    Except.bind (isomer_name_from_nuclear_data a b es) nuclear_data_from_name =
      .ok (a, b, es) := by
  have hat := atomic_of_symbol hs
  have hprops := elementSymbols_props s (symbol_ok_mem hs)
  have hsym : ∀ c ∈ s, Char.isDigit c = false := fun c hc => (hprops.2 c hc).1
  unfold isomer_name_from_nuclear_data
  rw [hs, bind_ok]
  beta_reduce
  rw [bind_ok]
  by_cases hes : es = 0
  · subst hes
    rw [if_neg (by simp), List.append_nil, intToStr_of_nonneg hb0]
    rw [name_parse_zero s a b.toNat hsym hat, Int.toNat_of_nonneg hb0]
  · rw [if_pos hes, intToStr_of_nonneg hb0, intToStr_of_nonneg he]
    rw [name_parse_pos s a b.toNat es.toNat hsym hat, Int.toNat_of_nonneg hb0,
      Int.toNat_of_nonneg he]

/-- Witness for C1 at the cobalt-60m1 triple. -/
theorem C1_name_roundtrip_witness :
    get_element_symbol_from_atomic_number 27 = .ok ("Co".toList) ∧
    Except.bind (isomer_name_from_nuclear_data 27 60 1) nuclear_data_from_name =
      .ok (27, 60, 1) :=
  ⟨by decide, C1_name_roundtrip 27 60 1 ("Co".toList) (by decide) (by decide) (by decide)
    (by decide) (by decide)⟩

/-- C2: for every triple `(atomic_number, atomic_mass, energy_state)` with a known
element symbol for `atomic_number`, `atomic_number` and `atomic_mass` below 1000 and
`energy_state ≥ 0`, `nuclear_data_from_filename` applied to
`filename_from_nuclear_data atomic_number atomic_mass energy_state` returns exactly
`(atomic_number, atomic_mass, energy_state)`. -/
theorem C2_filename_roundtrip (a b es : ℤ) (s : Str)
    (hs : get_element_symbol_from_atomic_number a = .ok s)
    (ha : a < 1000) (hb0 : 0 ≤ b) (hb : b < 1000) (he : 0 ≤ es) :
    Except.bind (filename_from_nuclear_data a b es) nuclear_data_from_filename =
      .ok (a, b, es) := by
  have hprops := elementSymbols_props s (symbol_ok_mem hs)
  have hs_ : ∀ c ∈ s, c ≠ '_' := fun c hc => (hprops.2 c hc).2.1
  have hab := atomic_bound hs
  have ha0 : (0 : ℤ) ≤ a := by omega
  have hanat : a.toNat < 1000 := by omega
  have hbnat : b.toNat < 1000 := by omega
  unfold filename_from_nuclear_data
  rw [hs, bind_ok]
  beta_reduce
  rw [bind_ok, intToStr_of_nonneg ha0, intToStr_of_nonneg hb0]
  by_cases hes : es = 0
  · subst hes
    rw [if_neg (by simp), List.append_nil]
    rw [filename_parse_zero s a.toNat b.toNat hs_ hanat hbnat,
      Int.toNat_of_nonneg ha0, Int.toNat_of_nonneg hb0]
  · rw [if_pos hes, intToStr_of_nonneg he]
    rw [filename_parse_pos s a.toNat b.toNat es.toNat hs_ hanat hbnat,
      Int.toNat_of_nonneg ha0, Int.toNat_of_nonneg hb0, Int.toNat_of_nonneg he]

/-- Witness for C2 at the cobalt-60m1 triple. -/
theorem C2_filename_roundtrip_witness :
    get_element_symbol_from_atomic_number 27 = .ok ("Co".toList) ∧
    Except.bind (filename_from_nuclear_data 27 60 1) nuclear_data_from_filename =
      .ok (27, 60, 1) :=
  ⟨by decide, C2_filename_roundtrip 27 60 1 ("Co".toList) (by decide) (by decide) (by decide)
    (by decide) (by decide)⟩

/-- C3: both encoders append the `m<energy_state>` suffix exactly when the energy
state is strictly positive (over the non-negative domain); with energy state 0 the
output carries no suffix; and the four concrete cobalt-60 outputs are as stated. -/
theorem C3_suffix_iff :
    (∀ a b es : ℤ, ∀ s : Str, get_element_symbol_from_atomic_number a = .ok s → 0 < es →
      isomer_name_from_nuclear_data a b es =
        .ok (s ++ (intToStr b ++ 'm' :: intToStr es))) ∧
    (∀ a b : ℤ, ∀ s : Str, get_element_symbol_from_atomic_number a = .ok s →
      isomer_name_from_nuclear_data a b 0 = .ok (s ++ intToStr b)) ∧
    (∀ a b es : ℤ, ∀ s : Str, get_element_symbol_from_atomic_number a = .ok s → 0 < es →
      filename_from_nuclear_data a b es = .ok ("dec-".toList ++ (zfill 3 (intToStr a) ++
        '_' :: (s ++ '_' :: ((zfill 3 (intToStr b) ++ 'm' :: intToStr es) ++
          ".endf".toList))))) ∧
    (∀ a b : ℤ, ∀ s : Str, get_element_symbol_from_atomic_number a = .ok s →
      filename_from_nuclear_data a b 0 = .ok ("dec-".toList ++ (zfill 3 (intToStr a) ++
        '_' :: (s ++ '_' :: (zfill 3 (intToStr b) ++ ".endf".toList))))) ∧
    isomer_name_from_nuclear_data 27 60 0 = .ok ("Co60".toList) ∧
    isomer_name_from_nuclear_data 27 60 1 = .ok ("Co60m1".toList) ∧
    filename_from_nuclear_data 27 60 0 = .ok ("dec-027_Co_060.endf".toList) ∧
    filename_from_nuclear_data 27 60 1 = .ok ("dec-027_Co_060m1.endf".toList) := by
  refine ⟨?_, ?_, ?_, ?_, by decide, by decide, by decide, by decide⟩
  · intro a b es s hs hes
    unfold isomer_name_from_nuclear_data
    rw [hs, bind_ok]
    beta_reduce
    rw [if_pos (by omega)]
  · intro a b s hs
    unfold isomer_name_from_nuclear_data
    rw [hs, bind_ok]
    beta_reduce
    rw [if_neg (by simp), List.append_nil]
  · intro a b es s hs hes
    unfold filename_from_nuclear_data
    rw [hs, bind_ok]
    beta_reduce
    rw [if_pos (by omega)]
  · intro a b s hs
    unfold filename_from_nuclear_data
    rw [hs, bind_ok]
    beta_reduce
    rw [if_neg (by simp), List.append_nil]

/-- Witness for C3 on the cobalt general clauses. -/
theorem C3_suffix_iff_witness :
    isomer_name_from_nuclear_data 27 60 1 =
      .ok (("Co".toList) ++ (intToStr 60 ++ 'm' :: intToStr 1)) ∧
    isomer_name_from_nuclear_data 27 60 0 = .ok (("Co".toList) ++ intToStr 60) ∧
    filename_from_nuclear_data 27 60 1 = .ok ("dec-".toList ++ (zfill 3 (intToStr 27) ++
      '_' :: (("Co".toList) ++ '_' :: ((zfill 3 (intToStr 60) ++ 'm' :: intToStr 1) ++
        ".endf".toList)))) ∧
    filename_from_nuclear_data 27 60 0 = .ok ("dec-".toList ++ (zfill 3 (intToStr 27) ++
      '_' :: (("Co".toList) ++ '_' :: (zfill 3 (intToStr 60) ++ ".endf".toList)))) :=
  ⟨C3_suffix_iff.1 27 60 1 ("Co".toList) (by decide) (by decide),
   C3_suffix_iff.2.1 27 60 ("Co".toList) (by decide),
   C3_suffix_iff.2.2.1 27 60 1 ("Co".toList) (by decide) (by decide),
   C3_suffix_iff.2.2.2.1 27 60 ("Co".toList) (by decide)⟩

/-- C8: for every isomer name with no numeric character, `nuclear_data_from_name`
fails with the unbound-variable (`NameError`) outcome, not the lookup error. -/
theorem C8_no_digit_name_error (name : Str) (h : ∀ c ∈ name, Char.isDigit c = false) :
    nuclear_data_from_name name = .error .nameError := by
  unfold nuclear_data_from_name
  rw [firstIdxWhere_none h, onNone_none]

/-- Witness for C8 at the digit-free name `Co`. -/
theorem C8_no_digit_name_error_witness :
    nuclear_data_from_name ("Co".toList) = .error .nameError :=
  C8_no_digit_name_error ("Co".toList) (by decide)

/-- C9 counterexample: `Co6m7m` has a numeric tail ending in a trailing `m` with no
digits after it, yet `nuclear_data_from_name` succeeds (with energy state 7) instead
of failing with an integer-conversion error. -/
theorem C9_counterexample :
    ("Co6m7m".toList).getLast? = some 'm' ∧
    nuclear_data_from_name ("Co6m7m".toList) = .ok (27, 6, 7) := by decide

/-- C9 (amended): when the numeric tail contains exactly one `m`, as its final
character, `nuclear_data_from_name` fails with the integer-conversion error on the
empty string; and the energy-state default to 0 applies exactly when the tail
contains no `m` at all. -/
theorem C9_amended :
    (∀ name : Str, ∀ i : ℕ, ∀ a : ℤ, ∀ t : Str, ∀ mass : ℤ,
      firstIdxWhere Char.isDigit name = some i →
      get_atomic_number_from_element_symbol (name.take i) = .ok a →
      name.drop i = t ++ ['m'] → (∀ c ∈ t, c ≠ 'm') → pyInt t = some mass →
      nuclear_data_from_name name = .error (.valueError (intErrMsg []))) ∧
    (∀ name : Str, ∀ i : ℕ, ∀ a : ℤ, ∀ mass : ℤ,
      firstIdxWhere Char.isDigit name = some i →
      get_atomic_number_from_element_symbol (name.take i) = .ok a →
      (∀ c ∈ name.drop i, c ≠ 'm') → pyInt (name.drop i) = some mass →
      nuclear_data_from_name name = .ok (a, mass, 0)) := by
  constructor
  · intro name i a t mass hidx hat hdrop ht hmass
    unfold nuclear_data_from_name
    rw [hidx, onNone_some]
    beta_reduce
    rw [hat, bind_ok]
    beta_reduce
    rw [hdrop]
    have hsp : pySplitChar 'm' (t ++ ['m']) = [t, []] := by
      have hform : (t ++ ['m'] : Str) = t ++ 'm' :: ([] : Str) := rfl
      rw [hform, pySplitChar_append ht]
      rfl
    rw [hsp]
    have hh1 : ([t, []] : List Str).headI = t := rfl
    rw [hh1, pyIntE_of_some hmass, bind_ok]
    beta_reduce
    have hh2 : ([t, []] : List Str).get? 1 = some [] := rfl
    rw [hh2, onNone_some]
    beta_reduce
    have hnil : pyInt ([] : Str) = none := rfl
    rw [pyIntE_of_none hnil, bind_error]
  · intro name i a mass hidx hat hnom hmass
    unfold nuclear_data_from_name
    rw [hidx, onNone_some]
    beta_reduce
    rw [hat, bind_ok]
    beta_reduce
    rw [pySplitChar_of_not_mem hnom]
    have hh1 : ([name.drop i] : List Str).headI = name.drop i := rfl
    rw [hh1, pyIntE_of_some hmass, bind_ok]
    beta_reduce
    have hh2 : ([name.drop i] : List Str).get? 1 = none := rfl
    rw [hh2, onNone_none]

/-- Witness for C9 (amended) at `Co60m` and `Co60`. -/
theorem C9_amended_witness :
    nuclear_data_from_name ("Co60m".toList) = .error (.valueError (intErrMsg [])) ∧
    nuclear_data_from_name ("Co60".toList) = .ok (27, 60, 0) :=
  ⟨C9_amended.1 ("Co60m".toList) 2 27 ("60".toList) 60 (by decide) (by decide) (by decide)
    (by decide) (by decide),
   C9_amended.2 ("Co60".toList) 2 27 60 (by decide) (by decide) (by decide) (by decide)⟩

/-- C10 counterexample: two filenames that differ only in their second
underscore-delimited segment but give different nuclear data, because the character
slice 4..7 overlaps the second segment when the first segment is short. -/
theorem C10_counterexample :
    pySplitChar '_' ("abc_123_060.endf".toList) =
      ["abc".toList, "123".toList, "060.endf".toList] ∧
    pySplitChar '_' ("abc_999_060.endf".toList) =
      ["abc".toList, "999".toList, "060.endf".toList] ∧
    nuclear_data_from_filename ("abc_123_060.endf".toList) = .ok (123, 60, 0) ∧
    nuclear_data_from_filename ("abc_999_060.endf".toList) = .ok (999, 60, 0) ∧
    nuclear_data_from_filename ("abc_123_060.endf".toList) ≠
      nuclear_data_from_filename ("abc_999_060.endf".toList) := by decide

/-- C10 (amended): `nuclear_data_from_filename` ignores the second
underscore-delimited segment whenever the first underscore-free segment has length
at least 7 (as in the `dec-NNN` convention), so two such filenames differing only in
that segment give identical results. -/
theorem C10_amended (s0 x y rest : Str)
    (h0 : ∀ c ∈ s0, c ≠ '_') (hx : ∀ c ∈ x, c ≠ '_') (hy : ∀ c ∈ y, c ≠ '_')
    (hlen : 7 ≤ s0.length) :
    nuclear_data_from_filename (s0 ++ '_' :: (x ++ '_' :: rest)) =
      nuclear_data_from_filename (s0 ++ '_' :: (y ++ '_' :: rest)) := by
  have hkey : ∀ z : Str, (∀ c ∈ z, c ≠ '_') →
      ((s0 ++ '_' :: (z ++ '_' :: rest)).drop 4).take 3 = (s0.drop 4).take 3 ∧
      pySplitChar '_' (s0 ++ '_' :: (z ++ '_' :: rest)) =
        s0 :: z :: pySplitChar '_' rest := by
    intro z hz
    constructor
    · rw [List.drop_append_eq_append_drop, show 4 - s0.length = 0 by omega,
        List.drop_zero, List.take_append_eq_append_take,
        show 3 - (s0.drop 4).length = 0 by rw [List.length_drop]; omega,
        List.take_zero, List.append_nil]
    · rw [pySplitChar_append h0, pySplitChar_append hz]
  obtain ⟨hsx, hpx⟩ := hkey x hx
  obtain ⟨hsy, hpy⟩ := hkey y hy
  unfold nuclear_data_from_filename
  rw [hsx, hsy, hpx, hpy]
  have hg : ∀ z : Str, getIdx (s0 :: z :: pySplitChar '_' rest) 2 =
      getIdx (pySplitChar '_' rest) 0 := by
    intro z
    unfold getIdx
    rfl
  rw [hg x, hg y]

/-- Witness for C10 (amended): changing the symbol segment `Co` to `Ni` does not
change the parsed nuclear data. -/
theorem C10_amended_witness :
    nuclear_data_from_filename
        ("dec-027".toList ++ '_' :: ("Co".toList ++ '_' :: ("060.endf".toList))) =
      nuclear_data_from_filename
        ("dec-027".toList ++ '_' :: ("Ni".toList ++ '_' :: ("060.endf".toList))) :=
  C10_amended ("dec-027".toList) ("Co".toList) ("Ni".toList) ("060.endf".toList)
    (by decide) (by decide) (by decide) (by decide)

/-- C4 counterexample: on a half-life line with two spaces before the value, the
loader's extraction, which splits on the single space character, differs from the
3rd and 4th whitespace tokens of the line. -/
theorem C4_counterexample :
    isHalfLifeLine ("Parent half-life:  5.2714 Y".toList) = true ∧
    extractHalfLife [("Parent half-life:  5.2714 Y".toList)] =
      .ok ([], "5.2714".toList) ∧
    tokensAt23 (pySplitWs ("Parent half-life:  5.2714 Y".toList)) =
      .ok ("5.2714".toList, "Y".toList) ∧
    extractHalfLife [("Parent half-life:  5.2714 Y".toList)] ≠
      tokensAt23 (pySplitWs ("Parent half-life:  5.2714 Y".toList)) := by decide

/-- C4 (amended): the loader extracts elements 2 and 3 of the first marker line
split on the single space character; these coincide with the 3rd and 4th whitespace
tokens exactly on lines where single-space splitting agrees with whitespace
tokenization (tokens separated by single spaces, no other whitespace). -/
theorem C4_amended (pre : List Str) (l : Str) (post : List Str)
    (hpre : ∀ x ∈ pre, isHalfLifeLine x = false) (hl : isHalfLifeLine l = true)
    (hagree : pySplitChar ' ' l = pySplitWs l) :
    extractHalfLife (pre ++ l :: post) = tokensAt23 (pySplitWs l) := by
  rw [extractHalfLife_of_first pre l post hpre hl, hagree]

/-- Witness for C4 (amended) on a single-space half-life line. -/
theorem C4_amended_witness :
    extractHalfLife [("Parent half-life: 5.2714 Y".toList)] =
      tokensAt23 (pySplitWs ("Parent half-life: 5.2714 Y".toList)) :=
  C4_amended [] ("Parent half-life: 5.2714 Y".toList) [] (by decide) (by decide) (by decide)

/-- C5 counterexample: loading the metastable name `Co60m1` from a STABLE file
succeeds, but `daughter_name` is `Co60`, not the isomer's own name. -/
theorem C5_counterexample :
    Except.bind (initIsomer ("Co60m1".toList) [("Parent half-life: STABLE Y".toList)])
      daughter_name = .ok ("Co60".toList) ∧
    Except.bind (initIsomer ("Co60m1".toList) [("Parent half-life: STABLE Y".toList)])
      daughter_name ≠ .ok ("Co60m1".toList) := by decide

/-- C5 (amended): a STABLE half-life value token yields `stable = true`,
`decay_rate = 0`, both deltas `0`; the decay-mode scan is never consulted (appending
any further lines leaves the record unchanged); and `daughter_name` is the
re-encoding of the isomer's own nuclear data at energy state 0 — the isomer's own
name whenever the given name is the canonical ground-state encoding. -/
theorem C5_stable (name : Str) (a b es : ℤ) (lines : List Str) (w u : Str)
    (hnd : nuclear_data_from_name name = .ok (a, b, es))
    (hext : extractHalfLife lines = .ok (w, u))
    (hw : w = "STABLE".toList) :
    ∃ r : IsomerRec, initIsomer name lines = .ok r ∧
      r.stable = true ∧ r.decay_rate = 0 ∧
      r.decay_atomic_number_change = 0 ∧ r.decay_atomic_mass_change = 0 ∧
      r.isomer_name = name ∧
      daughter_name r = isomer_name_from_nuclear_data a b 0 ∧
      (∀ extra : List Str, initIsomer name (lines ++ extra) = .ok r) := by
  refine ⟨⟨name, a, b, es, true, 0, 0, 0⟩, ?_, rfl, rfl, rfl, rfl, rfl, ?_, ?_⟩
  · rw [initIsomer_eq hnd hext]
    unfold initRest
    rw [if_pos hw]
  · unfold daughter_name
    show isomer_name_from_nuclear_data (a + 0) (b + 0) 0 = _
    rw [add_zero, add_zero]
  · intro extra
    rw [initIsomer_eq hnd (extractHalfLife_append extra hext)]
    unfold initRest
    rw [if_pos hw]

/-- Witness for C5 (amended) at `Co60` with a STABLE file. -/
theorem C5_stable_witness :
    ∃ r : IsomerRec,
      initIsomer ("Co60".toList) [("Parent half-life: STABLE Y".toList)] = .ok r ∧
      r.stable = true ∧ r.decay_rate = 0 ∧
      r.decay_atomic_number_change = 0 ∧ r.decay_atomic_mass_change = 0 ∧
      r.isomer_name = "Co60".toList ∧
      daughter_name r = isomer_name_from_nuclear_data 27 60 0 ∧
      (∀ extra : List Str,
        initIsomer ("Co60".toList) ([("Parent half-life: STABLE Y".toList)] ++ extra) =
          .ok r) :=
  C5_stable ("Co60".toList) 27 60 0 [("Parent half-life: STABLE Y".toList)]
    ("STABLE".toList) ("Y".toList) (by decide) (by decide) (by decide)

/-- C6: for a non-stable record the decay-mode code determines the deltas exactly
(`A` gives (−2, −4), `B-` gives (+1, 0), `EC` gives (−1, 0)) and `daughter_name` is
the isomer name encoded from the shifted nuclear data at energy state 0. -/
theorem C6_decay_modes (name : Str) (a b es : ℤ) (lines : List Str) (w u : Str)
    (v : ℚ) (dm : Str)
    (hnd : nuclear_data_from_name name = .ok (a, b, es))
    (hext : extractHalfLife lines = .ok (w, u))
    (hw : w ≠ "STABLE".toList)
    (hv : pyFloat w = some v) (hv0 : v ≠ 0)
    (hu : u ∈ unitsList)
    (hdm : extractDecayMode lines = .ok dm)
    (hmode : dm ∈ modesList) :
    ∃ r : IsomerRec, initIsomer name lines = .ok r ∧
      r.stable = false ∧ r.atomic_number = a ∧ r.atomic_mass = b ∧
      (dm = "A".toList →
        r.decay_atomic_number_change = -2 ∧ r.decay_atomic_mass_change = -4) ∧
      (dm = "B-".toList →
        r.decay_atomic_number_change = 1 ∧ r.decay_atomic_mass_change = 0) ∧
      (dm = "EC".toList →
        r.decay_atomic_number_change = -1 ∧ r.decay_atomic_mass_change = 0) ∧
      daughter_name r = isomer_name_from_nuclear_data
        (a + r.decay_atomic_number_change) (b + r.decay_atomic_mass_change) 0 := by
  obtain ⟨rate, hrate⟩ := unitFactor_mem (1 / v) hu
  have hinit : initIsomer name lines =
      Except.bind (decayModeDeltas dm) (fun ds =>
        .ok ⟨name, a, b, es, false, rate, ds.1, ds.2⟩) := by
    rw [initIsomer_eq hnd hext]
    unfold initRest
    rw [if_neg hw, pyFloatE_of_some hv, bind_ok]
    beta_reduce
    rw [if_neg hv0, hrate, bind_ok]
    beta_reduce
    rw [hdm, bind_ok]
  simp only [modesList, List.map, List.mem_cons, List.not_mem_nil, or_false] at hmode
  rcases hmode with rfl | rfl | rfl
  · refine ⟨⟨name, a, b, es, false, rate, -2, -4⟩, ?_, rfl, rfl, rfl,
      fun _ => ⟨rfl, rfl⟩, fun h => absurd h (by decide), fun h => absurd h (by decide), rfl⟩
    rw [hinit]
    rfl
  · refine ⟨⟨name, a, b, es, false, rate, 1, 0⟩, ?_, rfl, rfl, rfl,
      fun h => absurd h (by decide), fun _ => ⟨rfl, rfl⟩, fun h => absurd h (by decide), rfl⟩
    rw [hinit]
    rfl
  · refine ⟨⟨name, a, b, es, false, rate, -1, 0⟩, ?_, rfl, rfl, rfl,
      fun h => absurd h (by decide), fun h => absurd h (by decide), fun _ => ⟨rfl, rfl⟩, rfl⟩
    rw [hinit]
    rfl

/-- Witness for C6 at cobalt-60 with a beta-minus file. -/
theorem C6_decay_modes_witness :
    ∃ r : IsomerRec,
      initIsomer ("Co60".toList)
          [("Parent half-life: 5 Y".toList), ("Decay Mode: B- 100".toList)] = .ok r ∧
      r.stable = false ∧ r.atomic_number = 27 ∧ r.atomic_mass = 60 ∧
      (("B-".toList : Str) = "A".toList →
        r.decay_atomic_number_change = -2 ∧ r.decay_atomic_mass_change = -4) ∧
      (("B-".toList : Str) = "B-".toList →
        r.decay_atomic_number_change = 1 ∧ r.decay_atomic_mass_change = 0) ∧
      (("B-".toList : Str) = "EC".toList →
        r.decay_atomic_number_change = -1 ∧ r.decay_atomic_mass_change = 0) ∧
      daughter_name r = isomer_name_from_nuclear_data
        (27 + r.decay_atomic_number_change) (60 + r.decay_atomic_mass_change) 0 :=
  C6_decay_modes ("Co60".toList) 27 60 0
    [("Parent half-life: 5 Y".toList), ("Decay Mode: B- 100".toList)]
    ("5".toList) ("Y".toList)
    (((1 : ℤ) : ℚ) * ((strToNat ("5".toList) : ℕ) : ℚ)) ("B-".toList)
    (by decide) (by decide) (by decide) rfl
    (by norm_num [show strToNat (['5'] : Str) = 5 from rfl]) (by decide) (by decide)
    (by decide)

/-- C7 counterexample: with value token `X` and unrecognized unit token `FOO`,
construction fails with the float-conversion error, not with the message naming the
unit, so the claim's scenario conditions are incomplete as stated. -/
theorem C7_counterexample :
    initIsomer ("Co60".toList) [("Parent half-life: X FOO".toList)] =
      .error (.valueError ("could not convert string to float: \x27X\x27".toList)) ∧
    initIsomer ("Co60".toList) [("Parent half-life: X FOO".toList)] ≠
      .error (.valueError ("Unknown Half-Life Unit \x27FOO\x27".toList)) := by decide

/-- C7 (amended): for a name that parses, construction fails with
"No decay rate in this file" when no line starts with the half-life marker; with
"Unknown Half-Life Unit '<unit>'" when additionally the value token is a valid
nonzero float, is not STABLE, and the unit token is unrecognized; with
"No decay mode in this file" when additionally the unit is recognized and no line
starts with the decay-mode marker; and with "Unknown decay mode '<code>'" when the
extracted mode token is not A, B- or EC. -/
theorem C7_amended :
    (∀ (name : Str) (lines : List Str) (a b es : ℤ),
      nuclear_data_from_name name = .ok (a, b, es) →
      (∀ l ∈ lines, isHalfLifeLine l = false) →
      initIsomer name lines = .error (.valueError ("No decay rate in this file".toList))) ∧
    (∀ (name : Str) (lines : List Str) (a b es : ℤ) (w u : Str) (v : ℚ),
      nuclear_data_from_name name = .ok (a, b, es) →
      extractHalfLife lines = .ok (w, u) → w ≠ "STABLE".toList →
      pyFloat w = some v → v ≠ 0 → u ∉ unitsList →
      initIsomer name lines =
        .error (.valueError ("Unknown Half-Life Unit \x27".toList ++ u ++ "\x27".toList))) ∧
    (∀ (name : Str) (lines : List Str) (a b es : ℤ) (w u : Str) (v : ℚ),
      nuclear_data_from_name name = .ok (a, b, es) →
      extractHalfLife lines = .ok (w, u) → w ≠ "STABLE".toList →
      pyFloat w = some v → v ≠ 0 → u ∈ unitsList →
      (∀ l ∈ lines, isDecayModeLine l = false) →
      initIsomer name lines = .error (.valueError ("No decay mode in this file".toList))) ∧
    (∀ (name : Str) (lines : List Str) (a b es : ℤ) (w u : Str) (v : ℚ) (dm : Str),
      nuclear_data_from_name name = .ok (a, b, es) →
      extractHalfLife lines = .ok (w, u) → w ≠ "STABLE".toList →
      pyFloat w = some v → v ≠ 0 → u ∈ unitsList →
      extractDecayMode lines = .ok dm → dm ∉ modesList →
      initIsomer name lines =
        .error (.valueError ("Unknown decay mode \x27".toList ++ dm ++ "\x27".toList))) := by
  refine ⟨?_, ?_, ?_, ?_⟩
  · intro name lines a b es hnd hno
    obtain ⟨f, hf⟩ := filename_isomer_ok hnd
    unfold initIsomer
    rw [hnd, bind_ok]
    beta_reduce
    rw [hf, bind_ok]
    beta_reduce
    rw [extractHalfLife_of_none hno, bind_error]
  · intro name lines a b es w u v hnd hext hw hv hv0 hu
    rw [initIsomer_eq hnd hext]
    unfold initRest
    rw [if_neg hw, pyFloatE_of_some hv, bind_ok]
    beta_reduce
    rw [if_neg hv0, unitFactor_not_mem (1 / v) hu, bind_error]
  · intro name lines a b es w u v hnd hext hw hv hv0 hu hno
    obtain ⟨rate, hrate⟩ := unitFactor_mem (1 / v) hu
    rw [initIsomer_eq hnd hext]
    unfold initRest
    rw [if_neg hw, pyFloatE_of_some hv, bind_ok]
    beta_reduce
    rw [if_neg hv0, hrate, bind_ok]
    beta_reduce
    rw [extractDecayMode_of_none hno, bind_error]
  · intro name lines a b es w u v dm hnd hext hw hv hv0 hu hdm hmode
    obtain ⟨rate, hrate⟩ := unitFactor_mem (1 / v) hu
    rw [initIsomer_eq hnd hext]
    unfold initRest
    rw [if_neg hw, pyFloatE_of_some hv, bind_ok]
    beta_reduce
    rw [if_neg hv0, hrate, bind_ok]
    beta_reduce
    rw [hdm, bind_ok]
    beta_reduce
    rw [decayMode_not_mem hmode, bind_error]

/-- Witness for C7 (amended): the four failure messages at concrete files. -/
theorem C7_amended_witness :
    initIsomer ("Co60".toList) [("hello".toList)] =
      .error (.valueError ("No decay rate in this file".toList)) ∧
    initIsomer ("Co60".toList) [("Parent half-life: 5 FOO".toList)] =
      .error (.valueError ("Unknown Half-Life Unit \x27".toList ++ "FOO".toList ++
        "\x27".toList)) ∧
    initIsomer ("Co60".toList) [("Parent half-life: 5 Y".toList)] =
      .error (.valueError ("No decay mode in this file".toList)) ∧
    initIsomer ("Co60".toList)
        [("Parent half-life: 5 Y".toList), ("Decay Mode: XX 1".toList)] =
      .error (.valueError ("Unknown decay mode \x27".toList ++ "XX".toList ++
        "\x27".toList)) :=
  ⟨C7_amended.1 ("Co60".toList) [("hello".toList)] 27 60 0 (by decide) (by decide),
   C7_amended.2.1 ("Co60".toList) [("Parent half-life: 5 FOO".toList)] 27 60 0
     ("5".toList) ("FOO".toList) (((1 : ℤ) : ℚ) * ((strToNat ("5".toList) : ℕ) : ℚ))
     (by decide) (by decide) (by decide) rfl
     (by norm_num [show strToNat (['5'] : Str) = 5 from rfl]) (by decide),
   C7_amended.2.2.1 ("Co60".toList) [("Parent half-life: 5 Y".toList)] 27 60 0
     ("5".toList) ("Y".toList) (((1 : ℤ) : ℚ) * ((strToNat ("5".toList) : ℕ) : ℚ))
     (by decide) (by decide) (by decide) rfl
     (by norm_num [show strToNat (['5'] : Str) = 5 from rfl]) (by decide) (by decide),
   C7_amended.2.2.2 ("Co60".toList)
     [("Parent half-life: 5 Y".toList), ("Decay Mode: XX 1".toList)] 27 60 0
     ("5".toList) ("Y".toList) (((1 : ℤ) : ℚ) * ((strToNat ("5".toList) : ℕ) : ℚ))
     ("XX".toList) (by decide) (by decide) (by decide) rfl
     (by norm_num [show strToNat (['5'] : Str) = 5 from rfl]) (by decide) (by decide)
     (by decide)⟩

end Claims

end Decay
